import Mathlib

/-!
Shallow embedding of the flashing engine of pcanflash.c (PEAK pcanflash).

The repository source is the single file src/pcanflash.c; the project headers
(pcanflash.h, pcanhw.h, crc16.h) and the collaborator translation units
(pcanfunc.c, pcanhw.c, crc16.c) are not part of the sources, so the constants
and callees they define (BLKSZ, MAX_MODULES, CRC_IDENT_STRING, the hardware
capability table, calc_crc16) are modelled from the specification and kept
abstract as parameters wherever their concrete value is unknown.

The embedding covers:
  * the argument sanity check of main (lines 120-123);
  * the socket / tx-queue / bind setup sequence (lines 125-163);
  * module-id selection (lines 215-234);
  * the erase / write sequencing and the command trace of a flashing
    session (lines 255-354), with the write phase loop (lines 281-327)
    modelled as a recursive function over file offsets;
  * the CRC-array patch applied to a block before transmission
    (lines 298-316).

File-stream semantics used for the write loop: fseek(SEEK_SET) to a
non-negative offset on a regular file always succeeds, fread(1, B) returns
min(B, size - off) bytes, and feof is set after the fread exactly when fewer
than B bytes were returned, so the loop leaves the while(1) at the first
block that is not read in full.
-/

namespace Pcanflash

/-- Erased-flash sentinel byte (`EMPTY` in pcanflash.h; the comment at
line 294 of pcanflash.c spells out the value: "all bytes are EMPTY / 0xFFU",
and the pre-fill at line 286 is memset(&buf, 0xFF, sizeof(buf))). -/
def EMPTY : Nat := 0xFF

/-- Minimal outbound CAN tx queue length, `PCF_MIN_TX_QUEUE` at line 49. -/
def PCF_MIN_TX_QUEUE : Nat := 500

/-- Exit status of a completed or query-only session (returns at lines 212
and 361 of pcanflash.c). -/
def successStatus : Nat := 0

/-- Transport setup of main, lines 125-163: socket(), setsockopt (cannot
fail here), SIOCGIFTXQLEN ioctl, the queue-length gate
`ifr.ifr_qlen < PCF_MIN_TX_QUEUE`, SIOCGIFINDEX ioctl, and bind().  Each
failing step makes main return 1 at once; on success the function falls
through to the module query.  The booleans stand for the success of the
corresponding system call. -/
def setupTransport (socket_ok txq_ioctl_ok : Bool) (qlen : Nat)
    (ifindex_ok bind_ok : Bool) : Except Nat Unit :=
  if !socket_ok then Except.error 1
  else if !txq_ioctl_ok then Except.error 1
  else if qlen < PCF_MIN_TX_QUEUE then Except.error 1
  else if !ifindex_ok then Except.error 1
  else if !bind_ok then Except.error 1
  else Except.ok ()

/-- Argument sanity check at lines 120-123 of pcanflash.c:
`if ((argc - optind) != 1 || (infile && query) || (!(infile || query)))`
main prints the usage text and returns 0.  `some code` means main returns
early with that exit status; `none` means execution continues. -/
def argCheckExit (nargs : Nat) (has_infile query : Bool) : Option Nat :=
  if nargs ≠ 1 ∨ (has_infile = true ∧ query = true) ∨ ¬(has_infile = true ∨ query = true)
  then some 0 else none

/-- First discovered module slot, the loop at lines 218-223
(`for (i = 0; i < MAX_MODULES; i++) if (modules[i].can_id) ...`). -/
def firstPresent (mm : Nat) (present : Nat → Bool) : Option Nat :=
  (List.range mm).find? present

/-- Module-id selection, lines 215-229 of pcanflash.c.  `MAX_MODULES`,
`MAX_MODULES_MASK` and `NO_MODULE_ID` live in pcanflash.h, which is not in
the sources; modelled from the spec: module slots are a bounded small range
`0 .. mm-1` and the interactive mask is `mm - 1`.  `opt = some v` is the
value parsed from the `-i` option at line 97 (`strtoul(optarg, NULL, 10)`,
used with no range restriction); `inp` is the id entered at the interactive
prompt of line 226, which line 227 masks with `MAX_MODULES_MASK`.  The
result is the index subsequently used for `modules[module_id]`; `none`
means `module_id` kept `NO_MODULE_ID` because no slot was present. -/
def selectModuleId (mm entries : Nat) (present : Nat → Bool)
    (opt : Option Nat) (inp : Nat) : Option Nat :=
  match opt with
  | some v => some v
  | none =>
    if entries = 1 then firstPresent mm present
    else some (inp &&& (mm - 1))

/-- Lines 231-234: `modules[module_id].can_id` must be non-zero, otherwise
main reports "module id not found in module list!" and exits(1).
`some id` means the session continues flashing slot `id`; `none` is the
fatal exit (the slot-less `NO_MODULE_ID` case is also modelled as fatal). -/
def selectionOutcome (mm entries : Nat) (present : Nat → Bool)
    (opt : Option Nat) (inp : Nat) : Option Nat :=
  match selectModuleId mm entries present opt inp with
  | some id => if present id then some id else none
  | none => none

/-- Modelled from the spec: the hardware capability table of pcanhw.h /
pcanhw.c (not in the sources).  Per spec §3/§4.2 a profile keyed by
`hw_type` carries the capability flags consulted through `has_hw_flags`
(SWITCH_TO_BOOTLOADER, END_PROGRAMMING, RESET_AFTER_FLASH, FDATA_INVERT,
DATA_MODE8) and the geometry accessors `get_num_flashblocks`,
`get_crc_startpos` and `get_flash_offset`. -/
structure HwProfile where
  switch_to_bootloader : Bool
  end_programming : Bool
  reset_after_flash : Bool
  fdata_invert : Bool
  data_mode8 : Bool
  num_flashblocks : Nat
  crc_startpos : Nat
  flash_offset : Nat
deriving Repr, DecidableEq

/-- Modelled from the spec: `CRC_IDENT_STRING` (pcanflash.h, not in the
sources), the fixed identification string an embedded checksum descriptor
must carry; line 302 compares it with strcmp against the bytes in the
block. -/
def CRC_IDENT_STRING : String := "PCAN-CRC"

/-- One entry of the embedded checksum table: `{address, len, crc}`
(crc_array_t in pcanflash.h; layout modelled from spec §3 / §6). -/
structure crc_block_t where
  address : Nat
  len : Nat
  crc : Nat
deriving Repr, DecidableEq

/-- The embedded checksum descriptor: identification string, version,
creation date, mode, entry count and the entry list (crc_array_t in
pcanflash.h; layout modelled from spec §3 / §6). -/
structure crc_array_t where
  str : String
  version : Nat
  day : Nat
  month : Nat
  year : Nat
  mode : Nat
  count : Nat
  block : List crc_block_t
deriving Repr, DecidableEq

/-- Modelled from the spec: one shift step of the frozen 16-bit checksum
algorithm of crc16.c (not in the sources): a CRC-16 left shift with
polynomial 0x1021 on a 16-bit accumulator. -/
def crc16_shift (x : Nat) : Nat :=
  if x % 65536 < 32768 then x % 65536 * 2 % 65536
  else (x % 65536 * 2 % 65536) ^^^ 0x1021

/-- Modelled from the spec: folding one image byte into the 16-bit
accumulator (eight shift steps after xoring the byte into the high half). -/
def crc16_update (c b : Nat) : Nat :=
  crc16_shift (crc16_shift (crc16_shift (crc16_shift (crc16_shift (crc16_shift
    (crc16_shift (crc16_shift ((c ^^^ b % 256 * 256) % 65536))))))))

/-- Exactly `len` bytes of the original image starting at `address`:
the data `calc_crc16(infile, address, len)` reads from the file on disk
(not from the padded in-memory block). -/
def imageBytes (img : Nat → Nat) (address len : Nat) : List Nat :=
  (List.range len).map fun i => img (address + i) % 256

/-- Modelled from the spec: `calc_crc16(FILE *f, addr, len)` of crc16.c
(not in the sources): the frozen 16-bit checksum over exactly `len` bytes
read from the original image starting at `addr`, per spec §4.6. -/
def calc_crc16 (img : Nat → Nat) (address len : Nat) : Nat :=
  (imageBytes img address len).foldl crc16_update 0xFFFF

/-- The patch loop at lines 307-311 of pcanflash.c:
`for (i = 0; i < ca->count; i++) ca->block[i].crc = calc_crc16(...)`;
entries at index `j ≥ count` are left alone. -/
def patchBlocks (img : Nat → Nat) (count : Nat) :
    Nat → List crc_block_t → List crc_block_t
  | _, [] => []
  | j, cb :: rest =>
    (if j < count then { cb with crc := calc_crc16 img cb.address cb.len } else cb) ::
      patchBlocks img count (j + 1) rest

/-- The checksum-descriptor patch, lines 302-315 of pcanflash.c: the
descriptor found in the in-memory block is acted upon only when its
identification string strcmp-matches `CRC_IDENT_STRING` and its mode is
1, 3 or 4; then the stored crc of each of the first `count` entries is
overwritten from `calc_crc16` over the original image.  On an ident
mismatch or an unsupported mode only a log line is printed and the
descriptor (hence the block) is left untouched, and the write loop
continues. -/
def patchCrcArray (img : Nat → Nat) (ca : crc_array_t) : crc_array_t :=
  if ca.str = CRC_IDENT_STRING then
    if ca.mode = 1 ∨ ca.mode = 3 ∨ ca.mode = 4 then
      { ca with block := patchBlocks img ca.count 0 ca.block }
    else ca
  else ca

/-- The padded in-memory block of one write-loop iteration, lines 286-287:
`memset(&buf, 0xFF, sizeof(buf)); fread(buf, 1, BLKSZ, infile)` with the
file positioned at `off`; positions at or past end-of-image keep the
`EMPTY` pre-fill. -/
def readBlock (img : Nat → Nat) (size B off : Nat) : List Nat :=
  (List.range B).map fun i => if off + i < size then img (off + i) % 256 else EMPTY

/-- The emptiness scan at lines 289-292: a block is transmitted only when
some byte differs from `EMPTY`. -/
def blockIsEmpty (blk : List Nat) : Bool := blk.all (· == EMPTY)

/-- The guard at line 298 of pcanflash.c:
`(crc_start) && (crc_start >= foffset) && (crc_start < foffset + BLKSZ)`. -/
def crcScanHit (crc_start foffset B : Nat) : Bool :=
  (crc_start != 0) && (foffset ≤ crc_start) && (crc_start < foffset + B)

/-- Record of one iteration of the write loop: the file offset the block
was read at, the padded buffer, whether the CRC-array guard at line 298
fired (the patcher was invoked on this block), and whether write_block was
called for it (line 319, inside the non-empty branch). -/
structure BlockRec where
  off : Nat
  buf : List Nat
  scanned : Bool
  written : Bool
deriving Repr, DecidableEq

/-- The write-phase loop of pcanflash.c, lines 281-327, started at
`foffset`: each iteration seeks to `foffset`, reads a padded block, skips
it entirely when every byte is `EMPTY`, otherwise consults the CRC guard
and calls write_block; it leaves the loop at the first block not read in
full (feof after fread), else advances by `B` (`BLKSZ`). -/
def writeLoop (img : Nat → Nat) (size B crc_start : Nat) (foffset : Nat) :
    List BlockRec :=
  if hB : 0 < B then
    let buf := readBlock img size B foffset
    let ne := !blockIsEmpty buf
    let r : BlockRec := ⟨foffset, buf, ne && crcScanHit crc_start foffset B, ne⟩
    if h : foffset + B ≤ size then
      r :: writeLoop img size B crc_start (foffset + B)
    else [r]
  else []
termination_by size - foffset
decreasing_by simp_wf; omega

/-- Bus commands issued by the flashing part of main (after module
selection), in issue order. -/
inductive Ev where
  | switchBL
  | status
  | erase (i : Nat)
  | write (addr : Nat)
  | endProg
  | reset
deriving Repr, DecidableEq

/-- The write_block calls of the write phase: one per non-empty block, at
destination address `foffset + floffset` (line 319). -/
def writeCmds (floffset : Nat) (recs : List BlockRec) : List Ev :=
  (recs.filter BlockRec.written).map fun r => Ev.write (r.off + floffset)

/-- Command trace of a flashing session, lines 255-354 of pcanflash.c,
starting after module selection: switch_to_bootloader plus a status query
when the SWITCH_TO_BOOTLOADER flag is set (lines 255-262); then — after
the `get_num_flashblocks` zero check at lines 266-271, which exits(1) —
one erase_flashblocks call per block index (lines 272-273), the write
phase (lines 281-327), end_programming plus a status query when the
END_PROGRAMMING flag is set (lines 329-336), and reset_module when the
RESET_AFTER_FLASH flag is set or `-r` was given, followed by a status
query only in the RESET_AFTER_FLASH case (lines 338-354).  The result
pairs the events issued with `some 1` when main exited at the
no-flashblocks check (events up to that point only) and `none` on a run
that reaches the final `return 0`. -/
def flashSession (p : HwProfile) (do_reset : Bool) (img : Nat → Nat)
    (size B : Nat) : List Ev × Option Nat :=
  let sw := if p.switch_to_bootloader then [Ev.switchBL, Ev.status] else []
  if p.num_flashblocks = 0 then (sw, some 1)
  else
    (sw ++ (List.range p.num_flashblocks).map Ev.erase
        ++ writeCmds p.flash_offset (writeLoop img size B p.crc_startpos 0)
        ++ (if p.end_programming then [Ev.endProg, Ev.status] else [])
        ++ (if p.reset_after_flash || do_reset then
              Ev.reset :: (if p.reset_after_flash then [Ev.status] else [])
            else []),
     none)

/-- Continuation of main after the transport setup of lines 125-163: on a
setup failure main returns at once, so no bus traffic at all is issued;
`bus` stands for the events and exit status of everything from
query_modules (line 165) on. -/
def runFromSetup (socket_ok txq_ioctl_ok : Bool) (qlen : Nat)
    (ifindex_ok bind_ok : Bool) (bus : List Ev × Nat) : List Ev × Nat :=
  match setupTransport socket_ok txq_ioctl_ok qlen ifindex_ok bind_ok with
  | Except.error e => ([], e)
  | Except.ok _ => bus

/-- Offsets visited by the write loop from any start offset: an arithmetic
progression with step `B` that stops at the first block not read in full. -/
lemma writeLoop_map_off (img : Nat → Nat) (size B crc_start : Nat) :
    ∀ f, (writeLoop img size B crc_start f).map BlockRec.off =
      if 0 < B then (List.range ((size - f) / B + 1)).map (fun i => f + i * B)
      else [] := by
  intro f
  induction f using writeLoop.induct img size B crc_start with
  | case1 f hB h ih =>
    rw [writeLoop]
    simp only [dif_pos hB, dif_pos h, if_pos hB, List.map_cons, ih, if_pos hB]
    have hdiv : (size - f) / B = (size - (f + B)) / B + 1 := by
      have h1 : B ≤ size - f := by omega
      have h2 : size - (f + B) = size - f - B := by omega
      rw [h2, Nat.div_eq_sub_div hB h1]
    rw [hdiv]
    conv_rhs => rw [List.range_succ_eq_map]
    simp only [List.map_cons, List.map_map, Nat.zero_mul, Nat.add_zero]
    refine congrArg (List.cons f) ?_
    apply List.map_congr_left
    intro i _
    simp only [Function.comp_apply, Nat.succ_eq_add_one]
    ring
  | case2 f hB h =>
    rw [writeLoop]
    simp only [dif_pos hB, dif_neg h, if_pos hB]
    have hz : (size - f) / B = 0 := Nat.div_eq_of_lt (by omega)
    rw [hz]
    norm_num [List.range_succ]
  | case3 f hB =>
    rw [writeLoop]
    simp [dif_neg hB, if_neg hB]

/-- Every record produced by the write loop carries the padded buffer read
at its offset, is written iff that buffer is not entirely `EMPTY`, and is
handed to the CRC patcher iff additionally the guard of line 298 fired. -/
lemma writeLoop_mem_spec (img : Nat → Nat) (size B crc_start : Nat) :
    ∀ f, ∀ r ∈ writeLoop img size B crc_start f,
      r.buf = readBlock img size B r.off ∧
      r.written = !blockIsEmpty r.buf ∧
      r.scanned = (!blockIsEmpty r.buf && crcScanHit crc_start r.off B) := by
  intro f
  induction f using writeLoop.induct img size B crc_start with
  | case1 f hB h ih =>
    intro r hr
    rw [writeLoop] at hr
    simp only [dif_pos hB, dif_pos h, List.mem_cons] at hr
    rcases hr with rfl | hr
    · exact ⟨rfl, rfl, rfl⟩
    · exact ih r hr
  | case2 f hB h =>
    intro r hr
    rw [writeLoop] at hr
    simp only [dif_pos hB, dif_neg h, List.mem_singleton] at hr
    subst hr
    exact ⟨rfl, rfl, rfl⟩
  | case3 f hB =>
    intro r hr
    rw [writeLoop] at hr
    simp [dif_neg hB] at hr

/-- Specialisation of `writeLoop_map_off` to the start offset 0 used by
the write phase (line 276 sets `foffset = 0`). -/
lemma writeLoop_map_off_zero (img : Nat → Nat) (size B crc_start : Nat)
    (hB : 0 < B) :
    (writeLoop img size B crc_start 0).map BlockRec.off =
      (List.range (size / B + 1)).map (· * B) := by
  rw [writeLoop_map_off img size B crc_start 0, if_pos hB]
  simp

/-- Offsets visited by the write loop are pairwise strictly increasing. -/
lemma writeLoop_off_pairwise (img : Nat → Nat) (size B crc_start : Nat)
    (hB : 0 < B) :
    ((writeLoop img size B crc_start 0).map BlockRec.off).Pairwise (· < ·) := by
  rw [writeLoop_map_off_zero img size B crc_start hB]
  refine (List.pairwise_lt_range _).map _ ?_
  intro a b hab
  exact (Nat.mul_lt_mul_right hB).mpr hab

/-- Byte `i` of a padded block: image content below end-of-image, the
`EMPTY` pre-fill at or beyond it. -/
lemma readBlock_getElem (img : Nat → Nat) (size B off i : Nat) (hi : i < B) :
    (readBlock img size B off)[i]? =
      some (if off + i < size then img (off + i) % 256 else EMPTY) := by
  simp [readBlock, List.getElem?_range hi]

/-- Entry-wise description of the patch loop of lines 307-311. -/
lemma patchBlocks_getElem (img : Nat → Nat) (count : Nat) :
    ∀ (bs : List crc_block_t) (j i : Nat),
      (patchBlocks img count j bs)[i]? = (bs[i]?).map fun cb =>
        if j + i < count then { cb with crc := calc_crc16 img cb.address cb.len }
        else cb := by
  intro bs
  induction bs with
  | nil => intro j i; simp [patchBlocks]
  | cons cb rest ih =>
    intro j i
    cases i with
    | zero => simp [patchBlocks]
    | succ i =>
      simp only [patchBlocks, List.getElem?_cons_succ, ih (j + 1) i]
      rw [show j + 1 + i = j + (i + 1) from by omega]

/-- The 16-bit accumulator stays below 2^16 after a shift step. -/
lemma crc16_shift_lt (x : Nat) : crc16_shift x < 65536 := by
  unfold crc16_shift
  split
  · exact Nat.mod_lt _ (by norm_num)
  · have h1 : x % 65536 * 2 % 65536 < 2 ^ 16 := Nat.mod_lt _ (by norm_num)
    have h2 : (0x1021 : Nat) < 2 ^ 16 := by norm_num
    exact Nat.xor_lt_two_pow h1 h2

/-- The checksum the patcher stores is a 16-bit value. -/
lemma calc_crc16_lt (img : Nat → Nat) (address len : Nat) :
    calc_crc16 img address len < 65536 := by
  unfold calc_crc16
  have : ∀ (l : List Nat) (z : Nat), z < 65536 → l.foldl crc16_update z < 65536 := by
    intro l
    induction l with
    | nil => intro z hz; simpa using hz
    | cons b rest ih =>
      intro z _
      exact ih (crc16_update z b) (crc16_shift_lt _)
  exact this _ 0xFFFF (by norm_num)

/-- Claim C6, counterexample: the claim reads the program proceeds only if
the outbound queue depth exceeds the threshold of 500 frames, but the gate
at line 146 is `ifr.ifr_qlen < PCF_MIN_TX_QUEUE`, so a queue of exactly
500 frames — which does not exceed 500 — passes the setup. -/
theorem tx_queue_exact_threshold_cex :
    setupTransport true true 500 true true = Except.ok () ∧
      ¬ 500 > PCF_MIN_TX_QUEUE := by
  constructor
  · rfl
  · decide

/-- Claim C6 (amended): the transport setup succeeds exactly when socket,
SIOCGIFTXQLEN, SIOCGIFINDEX and bind succeed and the outbound queue depth
is at least (not strictly above) `PCF_MIN_TX_QUEUE` = 500; on any failure
main exits with status 1 before any command reaches the hardware (no bus
events are issued). -/
theorem transport_setup_guard (sok tok iok bok : Bool) (qlen : Nat)
    (bus : List Ev × Nat) :
    (setupTransport sok tok qlen iok bok = Except.ok () ↔
      sok = true ∧ tok = true ∧ PCF_MIN_TX_QUEUE ≤ qlen ∧
        iok = true ∧ bok = true)
  ∧ (setupTransport sok tok qlen iok bok ≠ Except.ok () →
      runFromSetup sok tok qlen iok bok bus = ([], 1)) := by
  cases sok <;> cases tok <;> cases iok <;> cases bok <;>
    by_cases hq : qlen < PCF_MIN_TX_QUEUE <;>
      simp_all [setupTransport, runFromSetup, PCF_MIN_TX_QUEUE]

/-- Claim C6, witness for the amended theorem: with a failing socket call
the session produces no bus events and exits with status 1. -/
theorem transport_setup_guard_witness :
    runFromSetup false true 600 true true ([Ev.status], 0) = ([], 1) :=
  (transport_setup_guard false true true true 600 ([Ev.status], 0)).2
    (by simp [setupTransport])

/-- Claim C7, counterexample: with two modules discovered and no `-i` id,
the code does not terminate; it prompts (line 226), masks the entered id
(line 227) and continues flashing the chosen module — here id 1 is entered
and the session goes on with module 1 instead of exiting. -/
theorem multiple_modules_prompt_cex :
    selectionOutcome 16 2 (fun i => i == 0 || i == 1) none 1 = some 1 := by
  decide

/-- Claim C7 (amended): when multiple modules are discovered and no module
id was specified, the program interactively prompts for an id, masks it
with `MAX_MODULES_MASK`, and terminates fatally only if the masked id does
not denote a discovered module; otherwise the session continues with that
module. -/
theorem multiple_modules_interactive (mm entries : Nat) (present : Nat → Bool)
    (inp : Nat) (h : entries ≠ 1) :
    selectionOutcome mm entries present none inp =
      if present (inp &&& (mm - 1)) then some (inp &&& (mm - 1)) else none := by
  simp [selectionOutcome, selectModuleId, h]

/-- Claim C7, witness for the amended theorem: entering id 3 among several
discovered modules continues the session with module 3. -/
theorem multiple_modules_interactive_witness :
    selectionOutcome 16 2 (fun i => i == 3) none 3 = some 3 := by
  rw [multiple_modules_interactive 16 2 (fun i => i == 3) 3 (by decide)]
  decide

/-- Claim C8, counterexample: an invocation with one interface argument
but neither a firmware image nor query mode makes main print the usage
text and return 0 (line 122) — exactly the `successStatus` that completed
and query-only sessions return, so the exit status does not distinguish
this fatal condition from success. -/
theorem bad_invocation_exit_zero_cex :
    argCheckExit 1 false false = some successStatus := by
  decide

/-- Claim C8 (amended): every invocation rejected by the check of lines
120-123 (argument count not exactly one interface, both or neither of
image and query mode) makes main return 0, the same status as a completed
or query-only session; only the separate getopt `-?` path returns 1. -/
theorem bad_invocation_usage_exit (nargs : Nat) (hi q : Bool)
    (h : ¬(nargs = 1 ∧ ¬(hi = true ∧ q = true) ∧ (hi = true ∨ q = true))) :
    argCheckExit nargs hi q = some successStatus := by
  have hc : nargs ≠ 1 ∨ (hi = true ∧ q = true) ∨ ¬(hi = true ∨ q = true) := by
    tauto
  unfold argCheckExit
  rw [if_pos hc]
  rfl

/-- Claim C8, witness for the amended theorem: `-f file -q iface` (image
and query together) exits with the success status 0. -/
theorem bad_invocation_usage_exit_witness :
    argCheckExit 1 true true = some successStatus :=
  bad_invocation_usage_exit 1 true true (by tauto)

/-- Claim C9 (code bug): the module id parsed from the `-i` option
(line 97) is used as the `modules[]` index with no range restriction —
`selectModuleId` hands the raw value through, here 1000000, which is not
below the array bound (16 slots in this instantiation), while the
interactively entered id is always masked into range by line 227. -/
theorem cli_module_id_unrestricted :
    selectModuleId 16 2 (fun _ => false) (some 1000000) 0 = some 1000000
  ∧ ¬ 1000000 < 16
  ∧ ∀ inp : Nat, inp &&& 15 < 16 := by
  refine ⟨rfl, by decide, fun inp => ?_⟩
  have h : inp &&& 15 ≤ 15 := Nat.and_le_right
  omega

/-- Claim C1: during the write phase an embedded checksum descriptor is
acted upon only if its identification string matches `CRC_IDENT_STRING`
exactly and its mode is one of 1, 3, 4; in that case the stored checksum
of every declared sub-range (the first `count` entries) is overwritten
with the 16-bit checksum computed by reading exactly `len` bytes starting
at `address` from the original image (`imageBytes`, the data
`calc_crc16(infile, ...)` consumes) — not from the padded in-memory
block; otherwise the descriptor, and with it the block, is left
unmodified and processing continues non-fatally. -/
theorem crc_descriptor_patch (img : Nat → Nat) (ca : crc_array_t) :
    (ca.str = CRC_IDENT_STRING → (ca.mode = 1 ∨ ca.mode = 3 ∨ ca.mode = 4) →
      (patchCrcArray img ca).str = ca.str ∧
      (patchCrcArray img ca).mode = ca.mode ∧
      (patchCrcArray img ca).count = ca.count ∧
      (∀ i : Nat, (patchCrcArray img ca).block[i]? = (ca.block[i]?).map fun cb =>
        if i < ca.count then
          { cb with
            crc := (imageBytes img cb.address cb.len).foldl crc16_update 0xFFFF }
        else cb) ∧
      ∀ a l : Nat, calc_crc16 img a l < 65536)
  ∧ (¬(ca.str = CRC_IDENT_STRING ∧ (ca.mode = 1 ∨ ca.mode = 3 ∨ ca.mode = 4)) →
      patchCrcArray img ca = ca) := by
  constructor
  · intro hs hm
    unfold patchCrcArray
    rw [if_pos hs, if_pos hm]
    refine ⟨rfl, rfl, rfl, fun i => ?_, fun a l => calc_crc16_lt img a l⟩
    have h := patchBlocks_getElem img ca.count ca.block 0 i
    simpa [calc_crc16] using h
  · intro hn
    unfold patchCrcArray
    split
    · split
      · exact absurd ⟨by assumption, by assumption⟩ hn
      · rfl
    · rfl

def imgW : Nat → Nat := fun n => n + 1

def caW : crc_array_t :=
  { str := CRC_IDENT_STRING, version := 1, day := 2, month := 3, year := 21,
    mode := 1, count := 1, block := [{ address := 0, len := 2, crc := 0 }] }

/-- Claim C1, witness: a matching descriptor with mode 1 gets the checksum
of its single sub-range overwritten from the original image bytes. -/
theorem crc_descriptor_patch_witness :
    (patchCrcArray imgW caW).block[0]? =
      some { address := 0, len := 2,
             crc := (imageBytes imgW 0 2).foldl crc16_update 0xFFFF } := by
  have h := ((crc_descriptor_patch imgW caW).1 rfl (Or.inl rfl)).2.2.2.1 0
  rw [h]
  simp [caW]

/-- Claim C2: a block whose padded buffer consists entirely of the empty
sentinel is never transmitted — no write_block call is issued for it — and
skipping it does not alter the erase/write sequencing: the offsets the
loop visits are the same for any image content (and any checksum scan
offset). -/
theorem empty_block_never_transmitted (img img2 : Nat → Nat)
    (size B c c2 fl : Nat) :
    (∀ r ∈ writeLoop img size B c 0, blockIsEmpty r.buf = true →
      r.written = false ∧
        Ev.write (r.off + fl) ∉ writeCmds fl (writeLoop img size B c 0))
  ∧ (writeLoop img size B c 0).map BlockRec.off =
      (writeLoop img2 size B c2 0).map BlockRec.off := by
  constructor
  · intro r hr he
    have hB : 0 < B := by
      by_contra hB
      rw [writeLoop] at hr
      simp [dif_neg hB] at hr
    have hw : r.written = false := by
      rw [(writeLoop_mem_spec img size B c 0 r hr).2.1, he]
      rfl
    refine ⟨hw, fun hmem => ?_⟩
    unfold writeCmds at hmem
    rw [List.mem_map] at hmem
    obtain ⟨r2, hr2f, heq⟩ := hmem
    rw [List.mem_filter] at hr2f
    obtain ⟨hr2, hw2⟩ := hr2f
    injection heq with haddr
    have hoff : BlockRec.off r2 = BlockRec.off r := by omega
    have hnd : ((writeLoop img size B c 0).map BlockRec.off).Nodup :=
      (writeLoop_off_pairwise img size B c hB).imp Nat.ne_of_lt
    have hr2r : r2 = r := List.inj_on_of_nodup_map hnd hr2 hr hoff
    rw [hr2r, hw] at hw2
    exact Bool.noConfusion hw2
  · rw [writeLoop_map_off img size B c 0, writeLoop_map_off img2 size B c2 0]

/-- Claim C2, witness: for a one-byte image holding only the sentinel, the
(empty) block read at offset 0 generates no write command. -/
theorem empty_block_never_transmitted_witness :
    Ev.write (0 + 9) ∉ writeCmds 9 (writeLoop (fun _ => 255) 1 1 0 0) := by
  refine ((empty_block_never_transmitted (fun _ => 255) (fun _ => 255) 1 1 0 0 9).1
    ⟨0, [255], false, false⟩ ?_ (by decide)).2
  simp [writeLoop, readBlock, blockIsEmpty, EMPTY, crcScanHit, List.range_succ]

/-- Claim C3: the write phase reads blocks at offsets 0, B, 2B, ...: a
strictly increasing, block-aligned sequence starting at 0 whose last
element is the block-aligned offset at or just before end-of-image (the
loop stops there because that block is the first one not read in full),
and every buffer byte at or past end-of-image is padded with `EMPTY`
while bytes below it come from the image. -/
theorem write_phase_offset_sequence (img : Nat → Nat) (size B c : Nat)
    (hB : 0 < B) :
    (writeLoop img size B c 0).map BlockRec.off =
      (List.range (size / B + 1)).map (· * B)
  ∧ ((writeLoop img size B c 0).map BlockRec.off).Chain' (· < ·)
  ∧ ((writeLoop img size B c 0).map BlockRec.off).getLast? =
      some (size / B * B)
  ∧ size / B * B ≤ size ∧ size < size / B * B + B
  ∧ (∀ r ∈ writeLoop img size B c 0, B ∣ r.off ∧ r.off ≤ size ∧
      ∀ i, i < B → r.buf[i]? =
        some (if r.off + i < size then img (r.off + i) % 256 else EMPTY)) := by
  have hoffs := writeLoop_map_off_zero img size B c hB
  have hdm := Nat.div_add_mod' size B
  have hml := Nat.mod_lt size hB
  refine ⟨hoffs, (writeLoop_off_pairwise img size B c hB).chain', ?_,
    Nat.div_mul_le_self size B, by omega, ?_⟩
  · rw [hoffs, List.range_succ, List.map_append]
    simp
  · intro r hr
    have hin : r.off ∈ (List.range (size / B + 1)).map (· * B) := by
      rw [← hoffs]
      exact List.mem_map_of_mem BlockRec.off hr
    rw [List.mem_map] at hin
    obtain ⟨i, hi, hoff⟩ := hin
    rw [List.mem_range] at hi
    refine ⟨⟨i, by rw [← hoff]; ring⟩, ?_, ?_⟩
    · have h1 : i * B ≤ size / B * B :=
        Nat.mul_le_mul_right B (by omega)
      have h2 := Nat.div_mul_le_self size B
      rw [← hoff]
      exact le_trans h1 h2
    · intro j hj
      rw [(writeLoop_mem_spec img size B c 0 r hr).1]
      exact readBlock_getElem img size B r.off j hj

/-- Claim C3, witness: a 3-byte image with block size 2 is read at offsets
0 and 2 (the final block short and padded). -/
theorem write_phase_offset_sequence_witness :
    (writeLoop (fun _ => 7) 3 2 5 0).map BlockRec.off = [0, 2] := by
  have h := (write_phase_offset_sequence (fun _ => 7) 3 2 5 (by decide)).1
  rw [h]
  decide

/-- Claim C4: for a profile requiring bootloader switch and
end-of-programming, a run that passes the flash-block check issues, in
order: switch-to-bootloader, status query, one erase per block index in
[0, num_flashblocks), one write per non-empty block in strictly
increasing offset order, end-programming, status query, and finally — if
a reset happens at all — the reset, followed by a status confirm only
when the RESET_AFTER_FLASH profile flag mandated it. -/
theorem flash_command_order (p : HwProfile) (dr : Bool) (img : Nat → Nat)
    (size B : Nat) (hsw : p.switch_to_bootloader = true)
    (hep : p.end_programming = true) (hnb : p.num_flashblocks ≠ 0)
    (hB : 0 < B) :
    flashSession p dr img size B =
      ([Ev.switchBL, Ev.status]
        ++ (List.range p.num_flashblocks).map Ev.erase
        ++ ((writeLoop img size B p.crc_startpos 0).filter BlockRec.written).map
            (fun r => Ev.write (r.off + p.flash_offset))
        ++ [Ev.endProg, Ev.status]
        ++ (if p.reset_after_flash then [Ev.reset, Ev.status]
            else if dr then [Ev.reset] else []), none)
  ∧ (((writeLoop img size B p.crc_startpos 0).filter BlockRec.written).map
      BlockRec.off).Chain' (· < ·) := by
  constructor
  · unfold flashSession writeCmds
    rw [if_neg hnb]
    cases hra : p.reset_after_flash <;> cases dr <;> simp [hsw, hep]
  · have hp := writeLoop_off_pairwise img size B p.crc_startpos hB
    have hsub : List.Sublist
        (((writeLoop img size B p.crc_startpos 0).filter
          BlockRec.written).map BlockRec.off)
        ((writeLoop img size B p.crc_startpos 0).map BlockRec.off) :=
      (List.filter_sublist _).map _
    exact (hp.sublist hsub).chain'

/-- Claim C4, witness: a two-block profile over a one-byte image produces
the full command sequence with one write. -/
theorem flash_command_order_witness :
    flashSession ⟨true, true, false, false, false, 2, 0, 0⟩ false
      (fun _ => 0) 1 1 =
      ([Ev.switchBL, Ev.status, Ev.erase 0, Ev.erase 1, Ev.write 0,
        Ev.endProg, Ev.status], none) := by
  have h := (flash_command_order ⟨true, true, false, false, false, 2, 0, 0⟩
    false (fun _ => 0) 1 1 rfl rfl (by decide) (by decide)).1
  rw [h]
  simp [writeLoop, readBlock, blockIsEmpty, EMPTY, crcScanHit, List.range_succ]

/-- Claim C5: after the reset command a status query is issued if and only
if the RESET_AFTER_FLASH profile flag is set: with the flag the session
trace ends in reset followed by status, while a reset triggered only by
the explicit `-r` request ends the trace at the reset itself, the status
query skipped. -/
theorem reset_status_query_iff_flag (p : HwProfile) (dr : Bool)
    (img : Nat → Nat) (size B : Nat) (hnb : p.num_flashblocks ≠ 0) :
    (p.reset_after_flash = true →
      ∃ pre, flashSession p dr img size B = (pre ++ [Ev.reset, Ev.status], none))
  ∧ (p.reset_after_flash = false → dr = true →
      ∃ pre, flashSession p dr img size B = (pre ++ [Ev.reset], none)) := by
  constructor
  · intro hra
    refine ⟨(if p.switch_to_bootloader then [Ev.switchBL, Ev.status] else [])
      ++ (List.range p.num_flashblocks).map Ev.erase
      ++ writeCmds p.flash_offset (writeLoop img size B p.crc_startpos 0)
      ++ (if p.end_programming then [Ev.endProg, Ev.status] else []), ?_⟩
    unfold flashSession
    rw [if_neg hnb]
    simp [hra, List.append_assoc]
  · intro hra hdr
    refine ⟨(if p.switch_to_bootloader then [Ev.switchBL, Ev.status] else [])
      ++ (List.range p.num_flashblocks).map Ev.erase
      ++ writeCmds p.flash_offset (writeLoop img size B p.crc_startpos 0)
      ++ (if p.end_programming then [Ev.endProg, Ev.status] else []), ?_⟩
    unfold flashSession
    rw [if_neg hnb]
    simp [hra, hdr, List.append_assoc]

/-- Claim C5, witness: a profile with the RESET_AFTER_FLASH flag ends its
trace with reset then status. -/
theorem reset_status_query_iff_flag_witness :
    ∃ pre, flashSession ⟨false, false, true, false, false, 1, 0, 0⟩ false
      (fun _ => 255) 1 1 = (pre ++ [Ev.reset, Ev.status], none) :=
  (reset_status_query_iff_flag ⟨false, false, true, false, false, 1, 0, 0⟩
    false (fun _ => 255) 1 1 (by decide)).1 rfl

/-- Claim C10: when the profile's checksum scan offset is 0, the guard of
line 298 never fires — the CRC patcher is invoked for no block, whatever
the image holds (in particular with a valid descriptor at image offset 0
in the first block); and whenever the patcher is invoked the scan offset
is strictly positive and lies inside the current block's byte range. -/
theorem crc_scan_requires_positive_start (img : Nat → Nat)
    (size B c f : Nat) :
    (∀ r ∈ writeLoop img size B 0 f, r.scanned = false)
  ∧ (∀ r ∈ writeLoop img size B c f, r.scanned = true →
      0 < c ∧ r.off ≤ c ∧ c < r.off + B) := by
  constructor
  · intro r hr
    have h := (writeLoop_mem_spec img size B 0 f r hr).2.2
    simpa [crcScanHit] using h
  · intro r hr hs
    have h := (writeLoop_mem_spec img size B c f r hr).2.2
    rw [hs] at h
    have h2 : crcScanHit c r.off B = true := by
      cases hcs : crcScanHit c r.off B
      · rw [hcs] at h
        simp at h
      · rfl
    have h3 : (¬c = 0 ∧ r.off ≤ c) ∧ c < r.off + B := by
      simpa [crcScanHit] using h2
    exact ⟨Nat.pos_of_ne_zero h3.1.1, h3.1.2, h3.2⟩

/-- Claim C10, witness: with scan offset 0, the non-empty first block of a
2-byte image is written but never handed to the CRC patcher. -/
theorem crc_scan_requires_positive_start_witness :
    BlockRec.scanned ⟨0, [7, 7], false, true⟩ = false := by
  refine (crc_scan_requires_positive_start (fun _ => 7) 2 2 0 0).1
    ⟨0, [7, 7], false, true⟩ ?_
  simp [writeLoop, readBlock, blockIsEmpty, EMPTY, crcScanHit, List.range_succ]

end Pcanflash
